import Mathlib

/-!
Shallow embedding of the expected-goals (xG) computational kernel of
`course/lessons/lesson2/plot_xGModelFit.py`: the shot-angle geometry,
the logistic probability model, McFadden's pseudo R-squared, the ROC
counting loop, and (modelled from the spec, since the optimizer itself
is an external library call) the iterative fitting procedure.
-/

namespace Soccermatics

open Classical Real

noncomputable section

/-- Numerator of the angle formula's argument: `7.32 * X`
(line 79 and line 399 of plot_xGModelFit.py). -/
def angleNum (X : ℝ) : ℝ := 7.32 * X

/-- Denominator of the angle formula's argument:
`X**2 + C**2 - (7.32/2)**2` (line 79 and line 399). -/
def angleDen (X C : ℝ) : ℝ := X ^ 2 + C ^ 2 - (7.32 / 2) ^ 2

/-- The raw arctangent `np.arctan(7.32*X / (X**2 + C**2 - (7.32/2)**2))`
shared by both angle computations. Division by zero follows the source's
IEEE semantics: a nonzero numerator over zero gives a signed infinity and
`np.arctan(±inf) = ±pi/2`; the `0/0` point (`X = 0`, `C = 7.32/2`) gives
NaN in the source, has no real counterpart, and is excluded by hypothesis
in the theorems that quantify over all inputs. -/
def rawAngle (X C : ℝ) : ℝ :=
  if angleDen X C = 0 then
    if 0 < angleNum X then Real.pi / 2
    else if angleNum X < 0 then -(Real.pi / 2)
    else 0
  else Real.arctan (angleNum X / angleDen X C)

/-- The vectorized angle of line 79:
`np.where(raw > 0, raw, raw + np.pi)` — the raw arctangent is kept when
it is strictly positive and `pi` is added otherwise. -/
def vectorAngle (X C : ℝ) : ℝ :=
  if 0 < rawAngle X C then rawAngle X C else rawAngle X C + Real.pi

/-- The scalar angle of the `pgoal_2d` grid loop (lines 399-401):
`a = np.arctan(...)`, then `if a < 0: a = np.pi + a` — `pi` is added only
when the raw arctangent is strictly negative. The loop evaluates it at
integer grid points `x` with `C = abs(y - 68/2)`. -/
def scalarAngle (X C : ℝ) : ℝ :=
  if rawAngle X C < 0 then Real.pi + rawAngle X C else rawAngle X C

/-- The linear predictor of `calculate_xG` (lines 383-388):
`bsum = b[0]`, then `bsum = bsum + b[i+1] * sh[v]` for each model
variable, pairing the i-th feature value with the i-th slope
coefficient. -/
def linPred (b0 : ℝ) (bs fs : List ℝ) : ℝ :=
  b0 + ((bs.zip fs).map fun p => p.1 * p.2).sum

/-- The logistic probability of `calculate_xG` (line 387):
`xG = 1/(1 + np.exp(bsum))`. -/
def calculate_xG (b0 : ℝ) (bs fs : List ℝ) : ℝ :=
  1 / (1 + Real.exp (linPred b0 bs fs))

/-- McFadden's pseudo R-squared of line 437:
`1 - test_model.llf / null_model.llf` — a bare division with no zero
test (warnings are suppressed by `np.seterr` on line 195 and
`warnings.filterwarnings` on line 44). -/
def pseudoR2 (llf llfNull : ℝ) : ℝ := 1 - llf / llfNull

/-- Modelled from the spec: `pseudoR2(fitted, null) = 1 - fitted/null;
requires null ≠ 0; fails with DivisionUndefinedError otherwise.` Stated
for comparison with the source's `pseudoR2`, which performs the bare
division unconditionally. -/
def pseudoR2Spec (llf llfNull : ℝ) : Except String ℝ :=
  if llfNull = 0 then Except.error "DivisionUndefinedError"
  else Except.ok (1 - llf / llfNull)

/-- One record of the ROC loop (lines 446-457): its `Goal` label
(0 or 1 in the data, line 81) and its model probability `xG`. -/
structure ScoredShot where
  goal : ℕ
  xG : ℝ

/-- `TP[i]`: records with `Goal == 1` and `xG > threshold`
(lines 448-450). -/
def countTP : List ScoredShot → ℝ → ℕ
  | [], _ => 0
  | s :: rest, t => (if s.goal = 1 ∧ t < s.xG then 1 else 0) + countTP rest t

/-- `FN[i]`: records with `Goal == 1` and not `xG > threshold`
(lines 448-452). -/
def countFN : List ScoredShot → ℝ → ℕ
  | [], _ => 0
  | s :: rest, t => (if s.goal = 1 ∧ ¬ t < s.xG then 1 else 0) + countFN rest t

/-- `FP[i]`: records with `Goal == 0` and `xG > threshold`
(lines 453-455). -/
def countFP : List ScoredShot → ℝ → ℕ
  | [], _ => 0
  | s :: rest, t => (if s.goal = 0 ∧ t < s.xG then 1 else 0) + countFP rest t

/-- `TN[i]`: records with `Goal == 0` and not `xG > threshold`
(lines 453-457). -/
def countTN : List ScoredShot → ℝ → ℕ
  | [], _ => 0
  | s :: rest, t => (if s.goal = 0 ∧ ¬ t < s.xG then 1 else 0) + countTN rest t

/-- Number of records carrying a given `Goal` label; `countGoal 1` and
`countGoal 0` are the class sizes against which the ROC loop's bucket
counts are compared. -/
def countGoal (g : ℕ) : List ScoredShot → ℕ
  | [] => 0
  | s :: rest => (if s.goal = g then 1 else 0) + countGoal g rest

/-- The true-positive rate `TP/(TP+FN)` plotted on line 460. When the
denominator is zero the numerator is zero too, and numpy's `0/0`
produces the NaN sentinel (with warnings suppressed by `np.seterr` on
line 195); NaN is embedded as `none`. -/
def tprPoint (shots : List ScoredShot) (t : ℝ) : Option ℝ :=
  if countTP shots t + countFN shots t = 0 then none
  else some ((countTP shots t : ℝ) / ((countTP shots t : ℝ) + (countFN shots t : ℝ)))

/-- The false-positive rate `FP/(FP+TN)` plotted on line 460, with the
same NaN-as-`none` embedding of the `0/0` case. -/
def fprPoint (shots : List ScoredShot) (t : ℝ) : Option ℝ :=
  if countFP shots t + countTN shots t = 0 then none
  else some ((countFP shots t : ℝ) / ((countFP shots t : ℝ) + (countTN shots t : ℝ)))

/-- Scoring a dataset: each record's `xG` column is `calculate_xG`
applied to its feature values (lines 391-392). -/
def scoreDataset (b0 : ℝ) (bs : List ℝ) (data : List (ℕ × List ℝ)) : List ScoredShot :=
  data.map fun d => ⟨d.1, calculate_xG b0 bs d.2⟩

/-- Modelled from the spec: the iterative fitting procedure is a
statsmodels library call (`smf.glm(...).fit()`, lines 269-270) whose
loop is not in the repository. Per the spec it repeatedly updates the
coefficient estimate, stops successfully when the log-likelihood
improvement falls below the convergence tolerance, and fails with
`NonConvergenceError` when the iteration cap is reached without meeting
the tolerance. -/
def fitLoop (step : List ℝ → List ℝ) (ll : List ℝ → ℝ) (tol : ℝ) :
    List ℝ → ℕ → Except String (List ℝ)
  | _, 0 => Except.error "NonConvergenceError"
  | b, n + 1 =>
    if ll (step b) - ll b < tol then Except.ok (step b)
    else fitLoop step ll tol (step b) n

end

/-! ## Helper lemmas -/

lemma angleDen_zero_zero_ne : angleDen 0 0 ≠ 0 := by
  simp only [angleDen]
  norm_num

lemma rawAngle_zero_zero : rawAngle 0 0 = 0 := by
  simp only [rawAngle, if_neg angleDen_zero_zero_ne, angleNum]
  norm_num

lemma rawAngle_bounds (X C : ℝ) :
    -(Real.pi / 2) ≤ rawAngle X C ∧ rawAngle X C ≤ Real.pi / 2 := by
  simp only [rawAngle]
  split_ifs
  · constructor <;> linarith [Real.pi_pos]
  · constructor <;> linarith [Real.pi_pos]
  · constructor <;> linarith [Real.pi_pos]
  · exact ⟨(Real.neg_pi_div_two_lt_arctan _).le, (Real.arctan_lt_pi_div_two _).le⟩

lemma rawAngle_ne_zero (X C : ℝ) (hX : 0 < X) : rawAngle X C ≠ 0 := by
  have hnum : 0 < angleNum X := by simp only [angleNum]; linarith
  simp only [rawAngle]
  split_ifs with h1
  · exact ne_of_gt (by linarith [Real.pi_pos])
  · rw [ne_eq, Real.arctan_eq_zero_iff]
    exact div_ne_zero (ne_of_gt hnum) h1

/-! ## Claim theorems: geometry -/

/-- C1 counterexample: at the shot location `X = 0`, `C = 0` the raw
arctangent is `0`, not negative, yet the vectorized computation of
line 79 does not return it unchanged (it adds `pi`), refuting the
claim that `pi` is added exactly when the raw arctangent is negative. -/
theorem c1_counterexample :
    ¬ rawAngle 0 0 < 0 ∧ vectorAngle 0 0 ≠ rawAngle 0 0 := by
  constructor
  · rw [rawAngle_zero_zero]
    exact lt_irrefl 0
  · simp only [vectorAngle, rawAngle_zero_zero]
    rw [if_neg (lt_irrefl 0), zero_add]
    exact Real.pi_ne_zero

/-- C1 (amended): the vectorized angle of line 79 returns the raw
arctangent when it is strictly positive and adds `pi` exactly when the
raw arctangent is not strictly positive (less than or equal to zero),
never by taking an absolute value, and the result lies in `[0, pi]`.
The hypothesis excludes the single `0/0` input on which the source
produces NaN. -/
theorem c1_branch_policy (X C : ℝ) (_h : ¬ (angleNum X = 0 ∧ angleDen X C = 0)) :
    (0 < rawAngle X C → vectorAngle X C = rawAngle X C) ∧
    (rawAngle X C ≤ 0 → vectorAngle X C = rawAngle X C + Real.pi) ∧
    0 ≤ vectorAngle X C ∧ vectorAngle X C ≤ Real.pi := by
  obtain ⟨hlo, hhi⟩ := rawAngle_bounds X C
  refine ⟨fun hp => by simp only [vectorAngle, if_pos hp],
    fun hp => by simp only [vectorAngle, if_neg (not_lt.mpr hp)], ?_, ?_⟩ <;>
  · simp only [vectorAngle]
    split_ifs <;> linarith [Real.pi_pos]

/-- C1 witness: the amended theorem instantiated at the concrete
shot location `X = 1`, `C = 0`. -/
theorem c1_witness :
    ¬ (angleNum 1 = 0 ∧ angleDen 1 0 = 0) ∧
    0 ≤ vectorAngle 1 0 ∧ vectorAngle 1 0 ≤ Real.pi := by
  have h : ¬ (angleNum 1 = 0 ∧ angleDen 1 0 = 0) := by
    rintro ⟨h1, -⟩
    norm_num [angleNum] at h1
  exact ⟨h, (c1_branch_policy 1 0 h).2.2⟩

/-- C2 counterexample: at `X = 0`, `C = 0` the vectorized angle
computation of line 79 does apply the add-`pi` correction branch and
returns `rawAngle 0 0 + pi = pi`, not `0`. -/
theorem c2_counterexample :
    vectorAngle 0 0 = rawAngle 0 0 + Real.pi ∧ vectorAngle 0 0 ≠ 0 := by
  have hv : vectorAngle 0 0 = Real.pi := by
    simp only [vectorAngle, rawAngle_zero_zero]
    rw [if_neg (lt_irrefl 0), zero_add]
  constructor
  · rw [hv, rawAngle_zero_zero, zero_add]
  · rw [hv]
    exact Real.pi_ne_zero

/-- C2 (amended): at the boundary input `X = 0`, `C = 0` the raw
arctangent is `atan(0 / (-(7.32/2)^2)) = 0`; the scalar grid-loop
computation (lines 399-401, correction only when `a < 0`) returns `0`
without applying its add-`pi` branch, while the vectorized computation
of line 79 (correction unless the raw value is strictly positive) does
apply its add-`pi` branch and returns `pi`. -/
theorem c2_boundary_angle :
    rawAngle 0 0 = 0 ∧ scalarAngle 0 0 = 0 ∧ vectorAngle 0 0 = Real.pi := by
  refine ⟨rawAngle_zero_zero, ?_, ?_⟩
  · simp only [scalarAngle, rawAngle_zero_zero]
    rw [if_neg (lt_irrefl 0)]
  · simp only [vectorAngle, rawAngle_zero_zero]
    rw [if_neg (lt_irrefl 0), zero_add]

/-- C6: for every shot location with `X > 0` the vectorized angle of
line 79 lies strictly between `0` and `pi`. -/
theorem c6_angle_open_range (X C : ℝ) (h : 0 < X) :
    0 < vectorAngle X C ∧ vectorAngle X C < Real.pi := by
  obtain ⟨hlo, hhi⟩ := rawAngle_bounds X C
  have hne := rawAngle_ne_zero X C h
  simp only [vectorAngle]
  split_ifs with hpos
  · exact ⟨hpos, by linarith [Real.pi_pos]⟩
  · have hneg : rawAngle X C < 0 := lt_of_le_of_ne (not_lt.mp hpos) hne
    exact ⟨by linarith [Real.pi_pos], by linarith⟩

/-- C6 witness: the open-range theorem instantiated at `X = 1`,
`C = 0`. -/
theorem c6_witness :
    (0 : ℝ) < 1 ∧ 0 < vectorAngle 1 0 ∧ vectorAngle 1 0 < Real.pi :=
  ⟨by norm_num, (c6_angle_open_range 1 0 (by norm_num)).1,
    (c6_angle_open_range 1 0 (by norm_num)).2⟩

/-- C10: for every input with `X > 0` the vectorized angle of line 79
(`np.where(raw > 0, raw, raw + pi)`) and the scalar grid-loop angle of
lines 399-401 (`if a < 0: a = pi + a`) agree. -/
theorem c10_vector_scalar_agree (X C : ℝ) (h : 0 < X) :
    vectorAngle X C = scalarAngle X C := by
  have hne := rawAngle_ne_zero X C h
  simp only [vectorAngle, scalarAngle]
  rcases lt_trichotomy (rawAngle X C) 0 with hlt | heq | hgt
  · rw [if_neg (by linarith), if_pos hlt]
    ring
  · exact absurd heq hne
  · rw [if_pos hgt, if_neg (by linarith)]

/-- C10 witness: the agreement theorem instantiated at `X = 1`,
`C = 0`. -/
theorem c10_witness :
    (0 : ℝ) < 1 ∧ vectorAngle 1 0 = scalarAngle 1 0 :=
  ⟨by norm_num, c10_vector_scalar_agree 1 0 (by norm_num)⟩

/-! ## Claim theorems: logistic model and evaluation -/

lemma calculate_xG_pos (b0 : ℝ) (bs fs : List ℝ) : 0 < calculate_xG b0 bs fs := by
  have he := Real.exp_pos (linPred b0 bs fs)
  simp only [calculate_xG]
  positivity

/-- C3: for every coefficient vector and feature vector the logistic
probability `1/(1 + exp(b0 + sum of slopes times features))` of
`calculate_xG` lies strictly inside the open interval `(0, 1)`. -/
theorem c3_xg_open_interval (b0 : ℝ) (bs fs : List ℝ) :
    0 < calculate_xG b0 bs fs ∧ calculate_xG b0 bs fs < 1 := by
  refine ⟨calculate_xG_pos b0 bs fs, ?_⟩
  have he := Real.exp_pos (linPred b0 bs fs)
  simp only [calculate_xG]
  rw [div_lt_one (by linarith)]
  linarith

/-- C9: the logistic probability is strictly antitone in the linear
predictor: of two coefficient/feature combinations, the one with the
strictly larger linear predictor has the strictly smaller
probability. -/
theorem c9_logistic_antitone (b0 b0' : ℝ) (bs bs' fs fs' : List ℝ)
    (h : linPred b0 bs fs < linPred b0' bs' fs') :
    calculate_xG b0' bs' fs' < calculate_xG b0 bs fs := by
  simp only [calculate_xG]
  apply one_div_lt_one_div_of_lt
  · linarith [Real.exp_pos (linPred b0 bs fs)]
  · have := Real.exp_lt_exp.mpr h
    linarith

/-- C9 witness: the antitonicity theorem instantiated at the intercepts
`0` and `1` with no features. -/
theorem c9_witness :
    linPred 0 [] [] < linPred 1 [] [] ∧ calculate_xG 1 [] [] < calculate_xG 0 [] [] := by
  have h : linPred 0 [] [] < linPred 1 [] [] := by
    simp [linPred]
  exact ⟨h, c9_logistic_antitone 0 1 [] [] [] [] h⟩

/-- C4 counterexample: at fitted log-likelihood `-1` and null
log-likelihood `0` the specified behavior would be the
`DivisionUndefinedError` failure, but the source's bare division of
line 437 raises nothing and produces a value (in the real-valued model,
where division by zero yields `0`, the value is `1`). -/
theorem c4_counterexample :
    pseudoR2Spec (-1) 0 = Except.error "DivisionUndefinedError" ∧ pseudoR2 (-1) 0 = 1 := by
  constructor
  · simp [pseudoR2Spec]
  · simp [pseudoR2]

/-- C4 (amended): for nonzero null log-likelihood the source's
`1 - fitted/null` agrees with the specified value, but the source never
raises on a zero null log-likelihood: the division is performed bare
(numpy produces an IEEE infinity or NaN with warnings suppressed; in the
real-valued model, where division by zero yields `0`, the result is
`1`). -/
theorem c4_pseudoR2_total (f n : ℝ) :
    (n ≠ 0 → pseudoR2Spec f n = Except.ok (pseudoR2 f n)) ∧ pseudoR2 f 0 = 1 := by
  constructor
  · intro hn
    simp [pseudoR2Spec, pseudoR2, hn]
  · simp [pseudoR2]

/-- C4 witness: the amended theorem instantiated at fitted
log-likelihood `5` and null log-likelihood `2`. -/
theorem c4_witness :
    (2 : ℝ) ≠ 0 ∧ pseudoR2Spec 5 2 = Except.ok (pseudoR2 5 2) :=
  ⟨by norm_num, (c4_pseudoR2_total 5 2).1 (by norm_num)⟩

/-- C8: when every iteration of the (spec-modelled) fitting loop fails
the convergence-tolerance test on log-likelihood improvement, reaching
the iteration cap yields the `NonConvergenceError` failure rather than a
silently truncated coefficient estimate. -/
theorem c8_nonconvergence (step : List ℝ → List ℝ) (ll : List ℝ → ℝ) (tol : ℝ)
    (h : ∀ b, ¬ ll (step b) - ll b < tol) :
    ∀ b cap, fitLoop step ll tol b cap = Except.error "NonConvergenceError" := by
  intro b cap
  induction cap generalizing b with
  | zero => simp only [fitLoop]
  | succ n ih =>
    simp only [fitLoop]
    rw [if_neg (h b)]
    exact ih (step b)

/-- C8 witness: the non-convergence theorem instantiated with the
identity update, the constant-zero log-likelihood, tolerance `-1` and
cap `3`. -/
theorem c8_witness :
    (∀ b : List ℝ, ¬ (fun _ : List ℝ => (0 : ℝ)) (id b) - (fun _ : List ℝ => (0 : ℝ)) b < -1) ∧
    fitLoop id (fun _ => 0) (-1) [] 3 = Except.error "NonConvergenceError" := by
  have h : ∀ b : List ℝ, ¬ (fun _ : List ℝ => (0 : ℝ)) (id b) - (fun _ : List ℝ => (0 : ℝ)) b < -1 := by
    intro b
    norm_num
  exact ⟨h, c8_nonconvergence id (fun _ => 0) (-1) h [] 3⟩

/-! ## Claim theorems: ROC curve -/

lemma countFN_scored_zero (b0 : ℝ) (bs : List ℝ) (data : List (ℕ × List ℝ)) :
    countFN (scoreDataset b0 bs data) 0 = 0 := by
  induction data with
  | nil => rfl
  | cons d rest ih =>
    simp only [scoreDataset, List.map_cons, countFN] at ih ⊢
    rw [if_neg fun hc => hc.2 (calculate_xG_pos b0 bs d.2)]
    simpa using ih

lemma countTN_scored_zero (b0 : ℝ) (bs : List ℝ) (data : List (ℕ × List ℝ)) :
    countTN (scoreDataset b0 bs data) 0 = 0 := by
  induction data with
  | nil => rfl
  | cons d rest ih =>
    simp only [scoreDataset, List.map_cons, countTN] at ih ⊢
    rw [if_neg fun hc => hc.2 (calculate_xG_pos b0 bs d.2)]
    simpa using ih

lemma countTP_scored_pos (b0 : ℝ) (bs : List ℝ) (data : List (ℕ × List ℝ))
    (hp : ∃ d ∈ data, d.1 = 1) : 0 < countTP (scoreDataset b0 bs data) 0 := by
  induction data with
  | nil => simp at hp
  | cons d rest ih =>
    simp only [scoreDataset, List.map_cons, countTP] at ih ⊢
    by_cases hd : d.1 = 1
    · rw [if_pos ⟨hd, calculate_xG_pos b0 bs d.2⟩]
      omega
    · rw [if_neg fun hc => hd hc.1]
      have hrest : ∃ x ∈ rest, x.1 = 1 := by
        rcases hp with ⟨x, hx, h1⟩
        rcases List.mem_cons.mp hx with rfl | hxr
        · exact absurd h1 hd
        · exact ⟨x, hxr, h1⟩
      simpa using ih hrest

lemma countFP_scored_pos (b0 : ℝ) (bs : List ℝ) (data : List (ℕ × List ℝ))
    (hn : ∃ d ∈ data, d.1 = 0) : 0 < countFP (scoreDataset b0 bs data) 0 := by
  induction data with
  | nil => simp at hn
  | cons d rest ih =>
    simp only [scoreDataset, List.map_cons, countFP] at ih ⊢
    by_cases hd : d.1 = 0
    · rw [if_pos ⟨hd, calculate_xG_pos b0 bs d.2⟩]
      omega
    · rw [if_neg fun hc => hd hc.1]
      have hrest : ∃ x ∈ rest, x.1 = 0 := by
        rcases hn with ⟨x, hx, h1⟩
        rcases List.mem_cons.mp hx with rfl | hxr
        · exact absurd h1 hd
        · exact ⟨x, hxr, h1⟩
      simpa using ih hrest

/-- C5: for every scored dataset containing at least one positive and
one negative label, the ROC point at threshold `0` (classify positive
when `xG > threshold`) is `tpr = 1` and `fpr = 1`: every record is
classified positive because every logistic probability is positive. -/
theorem c5_roc_threshold_zero (b0 : ℝ) (bs : List ℝ) (data : List (ℕ × List ℝ))
    (hp : ∃ d ∈ data, d.1 = 1) (hn : ∃ d ∈ data, d.1 = 0) :
    tprPoint (scoreDataset b0 bs data) 0 = some 1 ∧
    fprPoint (scoreDataset b0 bs data) 0 = some 1 := by
  have hTP := countTP_scored_pos b0 bs data hp
  have hFP := countFP_scored_pos b0 bs data hn
  have hFN := countFN_scored_zero b0 bs data
  have hTN := countTN_scored_zero b0 bs data
  constructor
  · have hne : countTP (scoreDataset b0 bs data) 0 + countFN (scoreDataset b0 bs data) 0 ≠ 0 := by
      omega
    simp only [tprPoint]
    rw [if_neg hne, hFN, Nat.cast_zero, add_zero, div_self (Nat.cast_ne_zero.mpr hTP.ne')]
  · have hne : countFP (scoreDataset b0 bs data) 0 + countTN (scoreDataset b0 bs data) 0 ≠ 0 := by
      omega
    simp only [fprPoint]
    rw [if_neg hne, hTN, Nat.cast_zero, add_zero, div_self (Nat.cast_ne_zero.mpr hFP.ne')]

/-- C5 witness: the threshold-zero theorem instantiated on the
two-record dataset with one goal and one miss, scored by the
intercept-only model with intercept `0`. -/
theorem c5_witness :
    (∃ d ∈ [((1 : ℕ), ([] : List ℝ)), (0, [])], d.1 = 1) ∧
    (∃ d ∈ [((1 : ℕ), ([] : List ℝ)), (0, [])], d.1 = 0) ∧
    tprPoint (scoreDataset 0 [] [((1 : ℕ), ([] : List ℝ)), (0, [])]) 0 = some 1 ∧
    fprPoint (scoreDataset 0 [] [((1 : ℕ), ([] : List ℝ)), (0, [])]) 0 = some 1 := by
  have hp : ∃ d ∈ [((1 : ℕ), ([] : List ℝ)), (0, [])], d.1 = 1 := ⟨(1, []), by simp, rfl⟩
  have hn : ∃ d ∈ [((1 : ℕ), ([] : List ℝ)), (0, [])], d.1 = 0 := ⟨(0, []), by simp, rfl⟩
  exact ⟨hp, hn, (c5_roc_threshold_zero 0 [] _ hp hn).1, (c5_roc_threshold_zero 0 [] _ hp hn).2⟩

lemma countTP_add_countFN (shots : List ScoredShot) (t : ℝ) :
    countTP shots t + countFN shots t = countGoal 1 shots := by
  induction shots with
  | nil => rfl
  | cons s rest ih =>
    simp only [countTP, countFN, countGoal]
    by_cases hs : s.goal = 1
    · by_cases ht : t < s.xG
      · rw [if_pos ⟨hs, ht⟩, if_neg fun hc => hc.2 ht, if_pos hs]
        omega
      · rw [if_neg fun hc => ht hc.2, if_pos ⟨hs, ht⟩, if_pos hs]
        omega
    · rw [if_neg fun hc => hs hc.1, if_neg fun hc => hs hc.1, if_neg hs]
      omega

lemma countFP_add_countTN (shots : List ScoredShot) (t : ℝ) :
    countFP shots t + countTN shots t = countGoal 0 shots := by
  induction shots with
  | nil => rfl
  | cons s rest ih =>
    simp only [countFP, countTN, countGoal]
    by_cases hs : s.goal = 0
    · by_cases ht : t < s.xG
      · rw [if_pos ⟨hs, ht⟩, if_neg fun hc => hc.2 ht, if_pos hs]
        omega
      · rw [if_neg fun hc => ht hc.2, if_pos ⟨hs, ht⟩, if_pos hs]
        omega
    · rw [if_neg fun hc => hs hc.1, if_neg fun hc => hs hc.1, if_neg hs]
      omega

lemma countGoal_eq_zero_iff (g : ℕ) (shots : List ScoredShot) :
    countGoal g shots = 0 ↔ ∀ s ∈ shots, s.goal ≠ g := by
  induction shots with
  | nil => simp [countGoal]
  | cons s rest ih =>
    rw [List.forall_mem_cons]
    simp only [countGoal]
    by_cases hs : s.goal = g
    · rw [if_pos hs]
      constructor
      · intro h
        exact absurd h (by omega)
      · rintro ⟨h1, -⟩
        exact absurd hs h1
    · rw [if_neg hs, zero_add, ih]
      exact (and_iff_right hs).symm

/-- C7: the rate of line 460 is the NaN sentinel (`none`) exactly when
the corresponding class is entirely absent from the dataset (so that
`TP+FN = 0`, respectively `FP+TN = 0`, and numpy's `0/0` yields NaN
under the suppression of line 195), and is an ordinary real number at
every other point; no error is raised either way. -/
theorem c7_degenerate_sentinel (shots : List ScoredShot) (t : ℝ) :
    (tprPoint shots t = none ↔ ∀ s ∈ shots, s.goal ≠ 1) ∧
    (fprPoint shots t = none ↔ ∀ s ∈ shots, s.goal ≠ 0) ∧
    ((∃ s ∈ shots, s.goal = 1) → ∃ r : ℝ, tprPoint shots t = some r) ∧
    ((∃ s ∈ shots, s.goal = 0) → ∃ r : ℝ, fprPoint shots t = some r) := by
  have h1 : countTP shots t + countFN shots t = 0 ↔ ∀ s ∈ shots, s.goal ≠ 1 := by
    rw [countTP_add_countFN, countGoal_eq_zero_iff]
  have h0 : countFP shots t + countTN shots t = 0 ↔ ∀ s ∈ shots, s.goal ≠ 0 := by
    rw [countFP_add_countTN, countGoal_eq_zero_iff]
  refine ⟨?_, ?_, ?_, ?_⟩
  · rw [← h1]
    simp only [tprPoint]
    split_ifs with h
    · simp [h]
    · simp [h]
  · rw [← h0]
    simp only [fprPoint]
    split_ifs with h
    · simp [h]
    · simp [h]
  · rintro ⟨s, hs, hg⟩
    have hne : countTP shots t + countFN shots t ≠ 0 := fun hz =>
      (h1.mp hz) s hs hg
    exact ⟨(countTP shots t : ℝ) / ((countTP shots t : ℝ) + (countFN shots t : ℝ)),
      by simp only [tprPoint, if_neg hne]⟩
  · rintro ⟨s, hs, hg⟩
    have hne : countFP shots t + countTN shots t ≠ 0 := fun hz =>
      (h0.mp hz) s hs hg
    exact ⟨(countFP shots t : ℝ) / ((countFP shots t : ℝ) + (countTN shots t : ℝ)),
      by simp only [fprPoint, if_neg hne]⟩

/-- C7 witness: the sentinel theorem instantiated on the one-record
dataset whose only label is negative: the true-positive rate is the
NaN sentinel and the false-positive rate is an ordinary real. -/
theorem c7_witness :
    tprPoint [⟨0, 1 / 2⟩] 0 = none ∧ ∃ r : ℝ, fprPoint [⟨0, 1 / 2⟩] 0 = some r := by
  constructor
  · refine (c7_degenerate_sentinel [⟨0, 1 / 2⟩] 0).1.mpr ?_
    intro s hs
    rw [List.mem_singleton] at hs
    subst hs
    simp
  · exact (c7_degenerate_sentinel [⟨0, 1 / 2⟩] 0).2.2.2 ⟨⟨0, 1 / 2⟩, by simp, rfl⟩

end Soccermatics
